import Mathlib

set_option autoImplicit false

/-!
Verification of the document-to-blog-record parser in `src/script.py` and the
batch endpoints in `src/main.py` of the fastapi-mass-uploading repository.

The Python code is shallowly embedded: paragraphs, runs, footers and documents
become Lean structures; each method of `StrapiDocUploader` becomes a pure Lean
function with the same name; the HTTP transport is abstracted as an oracle
`net : Payload → Option Resp` (an upload attempt is exactly one application of
`net`; `upload_request bd = none` means no request is ever built or sent).
Python string primitives (strip, split, replace, lower, substring test) are
modelled as structurally recursive functions on `List Char`, which the kernel
can evaluate.  The BeautifulSoup round trip in `parse_doc_file` is modelled by
building the top-level node sequence directly (one node per appended content
string, separated by newline text nodes, exactly as `"\n".join` produces) and
re-serialising it after the `<ul>`-wrapping pass.
-/

namespace Blog

/-- The apostrophe character (codepoint 39), kept out of literals. -/
def apos : Char := Char.ofNat 39

/-- Python `str.strip()` on a character list: drop whitespace at both ends. -/
def pyStripL (l : List Char) : List Char :=
  ((l.dropWhile Char.isWhitespace).reverse.dropWhile Char.isWhitespace).reverse

/-- Python `str.strip()`. -/
def pyStrip (s : String) : String := String.mk (pyStripL s.data)

/-- Python `needle in haystack` substring test. -/
def strContains (haystack needle : String) : Bool :=
  haystack.data.tails.any (fun t => needle.data.isPrefixOf t)

/-- Python `str.lower()` (ASCII case folding, as used on style names). -/
def pyLower (s : String) : String := String.mk (s.data.map Char.toLower)

/-- Python `str.split(",")` on a character list: `[] ↦ [""]`, separators kept
as boundaries, empty pieces preserved. -/
def splitCommaL : List Char → List (List Char)
  | [] => [[]]
  | c :: rest =>
    let r := splitCommaL rest
    if c = ',' then [] :: r
    else (c :: r.headD []) :: r.tail

/-- Python `str.split(",")`. -/
def pySplitComma (s : String) : List String := (splitCommaL s.data).map String.mk

/-- Concatenation of a list of strings in order (cons-friendly formulation of
`String.join`, convenient for induction). -/
def joinStrings (l : List String) : String := l.foldr (fun a b => a ++ b) ""

/-- The literal keywords marker from `script.py`. -/
def kwMarker : String := "Content Keywords:"

/-- Python `text.replace("Content Keywords:", "")`: remove every occurrence of
the 17-character marker, scanning left to right and skipping over each match
(non-overlapping, as `str.replace` does).  The `fuel` argument, always the
length of the remaining input, makes the recursion structural so the kernel
can evaluate it. -/
def removeMarkerFuel : Nat → List Char → List Char
  | 0, l => l
  | _ + 1, [] => []
  | fuel + 1, c :: rest =>
    if kwMarker.data.isPrefixOf (c :: rest) then removeMarkerFuel fuel (rest.drop 16)
    else c :: removeMarkerFuel fuel rest

/-- `text.replace("Content Keywords:", "")` on a character list. -/
def removeMarkerL (l : List Char) : List Char := removeMarkerFuel l.length l

/-- Python `html.escape` on one character (quote=True default: `&`, `<`, `>`,
double quote and apostrophe are replaced by entities). -/
def escapeChar (c : Char) : List Char :=
  if c = '&' then "&amp;".data
  else if c = '<' then "&lt;".data
  else if c = '>' then "&gt;".data
  else if c = '"' then "&quot;".data
  else if c = apos then "&#x27;".data
  else [c]

/-- Python `html.escape(s)` (the successive `str.replace` calls, `&` first,
are equivalent to this single per-character pass). -/
def escape (s : String) : String := String.mk ((s.data.map escapeChar).flatten)

/-- Tag stripping, modelling the text extraction of
`BeautifulSoup(content).get_text()`: characters between `<` and `>` are
dropped. -/
def stripTagsL : Bool → List Char → List Char
  | _, [] => []
  | true, c :: cs => if c = '>' then stripTagsL false cs else stripTagsL true cs
  | false, c :: cs => if c = '<' then stripTagsL true cs else c :: stripTagsL false cs

/-- Entity decoding, modelling that `get_text()` returns decoded text for the
five entities `html.escape` produces.  Structural in the `fuel` argument,
always the length of the remaining input. -/
def unescapeFuel : Nat → List Char → List Char
  | 0, l => l
  | _ + 1, [] => []
  | fuel + 1, c :: rest =>
    if c = '&' then
      if "amp;".data.isPrefixOf rest then '&' :: unescapeFuel fuel (rest.drop 4)
      else if "lt;".data.isPrefixOf rest then '<' :: unescapeFuel fuel (rest.drop 3)
      else if "gt;".data.isPrefixOf rest then '>' :: unescapeFuel fuel (rest.drop 3)
      else if "quot;".data.isPrefixOf rest then '"' :: unescapeFuel fuel (rest.drop 5)
      else if "#x27;".data.isPrefixOf rest then apos :: unescapeFuel fuel (rest.drop 5)
      else c :: unescapeFuel fuel rest
    else c :: unescapeFuel fuel rest

/-- Entity decoding of a whole character list. -/
def unescapeL (l : List Char) : List Char := unescapeFuel l.length l

/-- `BeautifulSoup(content, "html.parser").get_text()` on the markup this
program produces. -/
def getText (s : String) : String := String.mk (unescapeL (stripTagsL false s.data))

/-- A regex `\w` word character: alphanumeric or underscore. -/
def isWordChar (c : Char) : Bool := c.isAlphanum || c = '_'

/-- Number of maximal word-character runs, i.e. `len(re.findall(r"\w+", s))`.
The boolean records whether the previous character was a word character. -/
def countWordsL : Bool → List Char → Nat
  | _, [] => 0
  | inWord, c :: cs =>
    if isWordChar c then (if inWord then 0 else 1) + countWordsL true cs
    else countWordsL false cs

/-- `len(re.findall(r"\w+", s))`. -/
def countWords (s : String) : Nat := countWordsL false s.data

/-- Round `w / d` to the nearest integer, in exact arithmetic.  Python rounds
halves to even, but `w / 225` is never an exact half (`2 * w = 225 * odd` has
no integer solution), so nearest rounding is the faithful model. -/
def roundNearestDiv (w d : Nat) : Nat := (2 * w + d) / (2 * d)

/-- `StrapiDocUploader._calculate_reading_time`: strip the markup, count word
tokens, divide by 225 words per minute, round, floor at one minute. -/
def calculate_reading_time (content : String) : Nat :=
  max 1 (roundNearestDiv (countWords (getText content)) 225)

/-- A docx run: uniformly formatted text. `bold`/`italic` are the truthiness
of the python-docx tri-state flags. -/
structure Run where
  text : String
  bold : Bool
  italic : Bool
deriving DecidableEq, Repr

/-- A docx paragraph: its text, its style name (`para.style.name`), and its
ordered runs. -/
structure Paragraph where
  text : String
  style : String
  runs : List Run
deriving DecidableEq, Repr

/-- A footer region: its paragraphs (as their text) and its tables, a table
being rows of cells of paragraph texts. -/
structure FooterRegion where
  paragraphs : List String
  tables : List (List (List (List String)))
deriving DecidableEq, Repr

/-- A docx section with its up to three footer kinds; `none` models the
`AttributeError` path (footer kind absent). -/
structure DocSection where
  first_page_footer : Option FooterRegion
  footer : Option FooterRegion
  even_page_footer : Option FooterRegion
deriving DecidableEq, Repr

/-- An opened docx document: ordered paragraphs, sections, and the ISO string
already derived from the file modification time. -/
structure Doc where
  paragraphs : List Paragraph
  sections : List DocSection
  modified_date : String
deriving DecidableEq, Repr

/-- One step of `extract_footer_text` for a single footer paragraph: append
its stripped text and a space, skipping blank paragraphs. -/
def footerAddPara (acc : String) (t : String) : String :=
  if pyStrip t = "" then acc else acc ++ pyStrip t ++ " "

/-- `extract_footer_text` body for one footer kind of one docx section:
paragraphs first, then tables row-major, cell-major. -/
def footerRegionAdd (acc : String) (fr : Option FooterRegion) : String :=
  match fr with
  | none => acc
  | some fr =>
    let acc := fr.paragraphs.foldl footerAddPara acc
    fr.tables.foldl (fun acc tbl =>
      tbl.foldl (fun acc row =>
        row.foldl (fun acc cell => cell.foldl footerAddPara acc) acc) acc) acc

/-- `StrapiDocUploader.extract_footer_text`: all sections, the three footer
kinds in order, one final strip. -/
def extract_footer_text (sections : List DocSection) : String :=
  pyStrip (sections.foldl (fun acc sec =>
    footerRegionAdd (footerRegionAdd
      (footerRegionAdd acc sec.first_page_footer) sec.footer) sec.even_page_footer) "")

/-- Keyword extraction from one keywords paragraph (`parse_doc_file` lines
137-140): remove the marker, strip, split on commas, strip each token. -/
def extract_keywords (text : String) : List String :=
  (pySplitComma (pyStrip (String.mk (removeMarkerL text.data)))).map pyStrip

/-- The keywords pass of `parse_doc_file` (lines 129-142): every paragraph
containing the marker overwrites `blog_data["keywords"]`, so the last one
wins; the initial value is the empty list. -/
def keywords_scan (paras : List Paragraph) : List String :=
  paras.foldl (fun acc p =>
    if strContains p.text kwMarker then extract_keywords p.text else acc) []

/-- `para.style.name == "Heading 1" or "heading 1" in para.style.name.lower()`. -/
def isHeading1Style (style : String) : Bool :=
  style == "Heading 1" || strContains (pyLower style) "heading 1"

/-- `para.style.name == "Heading 2" or "heading 2" in para.style.name.lower()`. -/
def isHeading2Style (style : String) : Bool :=
  style == "Heading 2" || strContains (pyLower style) "heading 2"

/-- `para.style.name == "Heading 3" or "heading 3" in para.style.name.lower()`. -/
def isHeading3Style (style : String) : Bool :=
  style == "Heading 3" || strContains (pyLower style) "heading 3"

/-- `para.style.name == "Heading 4" or "heading 4" in para.style.name.lower()`. -/
def isHeading4Style (style : String) : Bool :=
  style == "Heading 4" || strContains (pyLower style) "heading 4"

/-- `"list" in para.style.name.lower()`. -/
def isListStyle (style : String) : Bool := strContains (pyLower style) "list"

/-- One run of `_process_inline_formatting`: escape, then wrap according to
the bold/italic flags. -/
def renderRun (r : Run) : String :=
  let text := escape r.text
  if r.bold && r.italic then "<strong><em>" ++ text ++ "</em></strong>"
  else if r.bold then "<strong>" ++ text ++ "</strong>"
  else if r.italic then "<em>" ++ text ++ "</em>"
  else text

/-- `StrapiDocUploader._process_inline_formatting`: accumulate the wrapped
runs left to right into `result`. -/
def process_inline_formatting (p : Paragraph) : String :=
  p.runs.foldl (fun result r => result ++ renderRun r) ""

/-- One entry of `content_paragraphs`: a `<li>` element (its inner markup) or
any other element kept as its full markup string. -/
inductive CItem where
  | li (inner : String)
  | other (markup : String)
deriving DecidableEq, Repr

/-- The mutable state of the title/tagline/content loop of `parse_doc_file`
(lines 148-151). -/
structure ScanState where
  title : String := ""
  tagline : String := ""
  titleFound : Bool := false
  taglineFound : Bool := false
  contentStarted : Bool := false
  content : List CItem := []
deriving DecidableEq, Repr

/-- The content element appended for one paragraph (lines 193-202), testing
the style substrings in source order. -/
def contentItem (p : Paragraph) (paraText : String) : CItem :=
  if isHeading3Style p.style then .other ("<h3>" ++ escape paraText ++ "</h3>")
  else if isHeading4Style p.style then .other ("<h4>" ++ escape paraText ++ "</h4>")
  else if isListStyle p.style then .li (process_inline_formatting p)
  else .other ("<p>" ++ process_inline_formatting p ++ "</p>")

/-- The body of the `for i, para in enumerate(doc.paragraphs)` loop of
`parse_doc_file` (lines 153-202), one paragraph at index `i`.  A paragraph
that matches no branch (e.g. a non-Heading-1 paragraph before the title)
leaves the state unchanged, as falling through the Python `if`/`elif` chain
does. -/
def scan_step (i : Nat) (st : ScanState) (p : Paragraph) : ScanState :=
  let paraText := pyStrip p.text
  if paraText = "" then st
  else if i == 0 && strContains paraText "Blog" then st
  else if strContains paraText kwMarker then st
  else if !st.titleFound && !st.taglineFound then
    (if isHeading1Style p.style then { st with title := paraText, titleFound := true } else st)
  else if st.titleFound && !st.taglineFound then
    { st with tagline := paraText, taglineFound := true, contentStarted := true }
  else if st.contentStarted then
    { st with content := st.content ++ [contentItem p paraText] }
  else st

/-- The whole enumerate loop, starting at index `i`. -/
def scan_paras : Nat → ScanState → List Paragraph → ScanState
  | _, st, [] => st
  | i, st, p :: rest => scan_paras (i + 1) (scan_step i st p) rest

/-- A top-level node of the parsed soup: element nodes (one per entry of
`content_paragraphs`), the `"\n"` text nodes the join inserts, and the `<ul>`
wrappers created by the post-pass. -/
inductive Node where
  | text (s : String)
  | li (inner : String)
  | el (markup : String)
  | ul (items : List String)
deriving DecidableEq, Repr

/-- Soup node for one content entry. -/
def itemNode : CItem → Node
  | .li inner => .li inner
  | .other m => .el m

/-- Whether a node is a `<li>` element. -/
def isLiNode : Node → Bool
  | .li _ => true
  | _ => false

/-- Inner markup of a `<li>` node (unused default otherwise). -/
def liInner : Node → String
  | .li s => s
  | _ => ""

/-- Worker of the `<ul>`-wrapping post-pass: `acc = some items` holds the
reversed inner markups of the `<li>` nodes already moved into the currently
open `<ul>`; any node other than an immediately following `<li>` closes it. -/
def wrapLisGo : Option (List String) → List Node → List Node
  | none, [] => []
  | some acc, [] => [Node.ul acc.reverse]
  | none, Node.li s :: rest => wrapLisGo (some [s]) rest
  | none, n :: rest => n :: wrapLisGo none rest
  | some acc, Node.li s :: rest => wrapLisGo (some (s :: acc)) rest
  | some acc, n :: rest => Node.ul acc.reverse :: n :: wrapLisGo none rest

/-- The `<ul>`-wrapping post-pass of `parse_doc_file` (lines 223-229) on the
top-level node sequence.  In BeautifulSoup terms: a `<li>` is appended to the
current `<ul>` exactly when it is the immediate next sibling of that `<ul>`
(`li.previous_sibling != current_list` otherwise), so a maximal run of
immediately adjacent `<li>` nodes becomes one `<ul>` placed where the run
was, and any intervening node, including a newline text node, starts a fresh
`<ul>`. -/
def wrapLis (ns : List Node) : List Node := wrapLisGo none ns

/-- Serialisation of one node, as `str(soup)` emits it. -/
def renderNode : Node → String
  | .text s => s
  | .li s => "<li>" ++ s ++ "</li>"
  | .el m => m
  | .ul items => "<ul>" ++ joinStrings (items.map (fun s => "<li>" ++ s ++ "</li>")) ++ "</ul>"

/-- `str(soup)`: concatenation of the serialised top-level nodes. -/
def renderNodes (ns : List Node) : String := joinStrings (ns.map renderNode)

/-- The parsed record `blog_data`. -/
structure BlogData where
  title : String
  tagline : String
  keywords : List String
  content : String
  modified_date : String
  reading_time : Nat
  label : String
deriving DecidableEq, Repr

/-- The fallback title pass of `parse_doc_file` (lines 209-216): the first
paragraph with non-blank stripped text whose raw text contains neither the
keywords marker nor `"Blog"`; when none exists the title keeps its previous
value `dflt`. -/
def fallback_title (paras : List Paragraph) (dflt : String) : String :=
  match paras.find? (fun p =>
      !(pyStrip p.text == "") && !strContains p.text kwMarker && !strContains p.text "Blog") with
  | some p => pyStrip p.text
  | none => dflt

/-- `StrapiDocUploader.parse_doc_file` on an opened document: footer label,
keywords pass, the title/tagline/content scan, fallback title, the newline
join, the `<ul>` post-pass, serialisation, and the reading time. -/
def parse_doc (doc : Doc) : BlogData :=
  let label := extract_footer_text doc.sections
  let keywords := keywords_scan doc.paragraphs
  let st := scan_paras 0 {} doc.paragraphs
  let title := if st.titleFound then st.title else fallback_title doc.paragraphs st.title
  let nodes := (st.content.map itemNode).intersperse (Node.text "\n")
  let content := renderNodes (wrapLis nodes)
  { title := title, tagline := st.tagline, keywords := keywords, content := content,
    modified_date := doc.modified_date,
    reading_time := calculate_reading_time content, label := label }

/-- `parse_doc_file` at the file boundary: `none` is the `except` path
(document cannot be opened), which returns `None`. -/
def parse_doc_file (fd : Option Doc) : Option BlogData := fd.map parse_doc

/-- The JSON `data` payload `upload_to_strapi` posts; keywords flattened with
`",".join`. -/
structure Payload where
  title : String
  tagline : String
  keywords : String
  content : String
  modified_date : String
  reading_time : Nat
  label : String
deriving DecidableEq, Repr

/-- The request `upload_to_strapi` builds: `None` (no request at all) when the
title is empty, the payload otherwise. -/
def upload_request (bd : BlogData) : Option Payload :=
  if bd.title = "" then none
  else some { title := bd.title, tagline := bd.tagline,
              keywords := String.intercalate "," bd.keywords,
              content := bd.content, modified_date := bd.modified_date,
              reading_time := bd.reading_time, label := bd.label }

/-- `StrapiDocUploader.upload_to_strapi` with the HTTP transport abstracted as
`net`; `net` returning `none` covers the non-2xx and exception paths. -/
def upload_to_strapi {Resp : Type} (net : Payload → Option Resp) (bd : BlogData) : Option Resp :=
  (upload_request bd).bind net

/-- One result entry appended by `process_directory`. -/
structure DirEntry (Resp : Type) where
  filename : String
  title : String
  label : String
  success : Bool
  response : Option Resp
deriving Repr

/-- The entry `process_directory` appends for one file (parse, then upload
when a record came back). -/
def dir_entry {Resp : Type} (net : Payload → Option Resp)
    (file : String × Option Doc) : DirEntry Resp :=
  match parse_doc_file file.2 with
  | some bd =>
    let result := upload_to_strapi net bd
    { filename := file.1, title := bd.title, label := bd.label,
      success := result.isSome, response := result }
  | none =>
    { filename := file.1, title := "Failed to parse", label := "",
      success := false, response := none }

/-- `StrapiDocUploader.process_directory`: the append loop over the listed
docx files (directory listing and the `.docx` filter are I/O and happen
upstream of this list). -/
def process_directory {Resp : Type} (net : Payload → Option Resp)
    (files : List (String × Option Doc)) : List (DirEntry Resp) :=
  files.foldl (fun results f => results ++ [dir_entry net f]) []

/-- The per-file loop of the `/upload` endpoint (`src/main.py` lines 55-66):
parse each uploaded file and append the upload result only when a record came
back; a file whose parse returns `None` appends nothing. -/
def upload_docs {Resp : Type} (net : Payload → Option Resp)
    (files : List (Option Doc)) : List (Option Resp) :=
  files.foldl (fun results fd =>
    match parse_doc_file fd with
    | some bd => results ++ [upload_to_strapi net bd]
    | none => results) []

/-- A paragraph the title/tagline scan skips without consuming (beyond index
0): blank after stripping, or the keywords paragraph. -/
def skipPara (p : Paragraph) : Bool :=
  (pyStrip p.text == "") || strContains (pyStrip p.text) kwMarker

/-- Claim C3, stated side: a paragraph qualifies as fallback title when it is
non-empty, is not the keywords paragraph, and is not the document-type marker,
the marker being the paragraph at index 0 containing "Blog". -/
def claimTitleQualifies (i : Nat) (p : Paragraph) : Bool :=
  !(pyStrip p.text == "") && !strContains p.text kwMarker
    && !(i == 0 && strContains p.text "Blog")

/-- First qualifying paragraph starting from index `i`. -/
def claimFirstQualifying : Nat → List Paragraph → Option Paragraph
  | _, [] => none
  | i, p :: rest =>
    if claimTitleQualifies i p then some p else claimFirstQualifying (i + 1) rest

/-- The fallback title claim C3 specifies: the first non-empty paragraph that
is neither the keywords paragraph nor the first-paragraph "Blog" marker. -/
def claimC3Title (doc : Doc) : String :=
  match claimFirstQualifying 0 doc.paragraphs with
  | some p => pyStrip p.text
  | none => ""

/-- The five entities `html.escape` can produce. -/
def entityStrings : List String := ["&amp;", "&lt;", "&gt;", "&quot;", "&#x27;"]

/-- The element tags this program ever writes into the content markup. -/
def allowedTags : List String :=
  ["<p>", "</p>", "<h3>", "</h3>", "<h4>", "</h4>", "<li>", "</li>",
   "<ul>", "</ul>", "<strong>", "</strong>", "<em>", "</em>"]

/-- Grammar of safely escaped markup: a string made only of known tag
literals, characters that are none of `&`, `<`, `>`, and the five escape
entities.  Membership rules out any raw `<`, `>` outside a tag literal and
any `&` that does not begin an entity. -/
inductive SafeMarkup : List Char → Prop where
  | nil : SafeMarkup []
  | safe {c : Char} {cs : List Char} :
      c ≠ '&' → c ≠ '<' → c ≠ '>' → SafeMarkup cs → SafeMarkup (c :: cs)
  | ent {e : String} {cs : List Char} :
      e ∈ entityStrings → SafeMarkup cs → SafeMarkup (e.data ++ cs)
  | tag {t : String} {cs : List Char} :
      t ∈ allowedTags → SafeMarkup cs → SafeMarkup (t.data ++ cs)

/-- Safety of one content entry: its stored markup is safely escaped. -/
def CItemSafe : CItem → Prop
  | .li inner => SafeMarkup inner.data
  | .other m => SafeMarkup m.data

/-- Safety of one soup node: every piece of markup it will serialise is
safely escaped. -/
def NodeSafe : Node → Prop
  | .text s => SafeMarkup s.data
  | .li s => SafeMarkup s.data
  | .el m => SafeMarkup m.data
  | .ul items => ∀ s ∈ items, SafeMarkup s.data

/-- Concrete document for claim C1: title, tagline, then two consecutive
list-style paragraphs. -/
def dC1 : Doc :=
  { paragraphs :=
      [ { text := "My Title", style := "Heading 1", runs := [] },
        { text := "My Tagline", style := "Heading 2", runs := [] },
        { text := "alpha", style := "List Paragraph",
          runs := [{ text := "alpha", bold := false, italic := false }] },
        { text := "beta", style := "List Paragraph",
          runs := [{ text := "beta", bold := false, italic := false }] } ],
    sections := [], modified_date := "2024-01-01T00:00:00" }

/-- Concrete document for claim C2: every paragraph is the keywords line, so
the title stays empty after all fallbacks. -/
def dC2 : Doc :=
  { paragraphs :=
      [ { text := "Content Keywords: a, b", style := "Normal", runs := [] } ],
    sections := [], modified_date := "" }

/-- Concrete document for claim C3: no Heading 1 anywhere; the first
paragraph is blank, the second contains "Blog" but is not the first
paragraph, the third is plain text. -/
def dC3 : Doc :=
  { paragraphs :=
      [ { text := "", style := "Normal", runs := [] },
        { text := "Blog roundup", style := "Normal", runs := [] },
        { text := "Quarterly Update", style := "Normal", runs := [] } ],
    sections := [], modified_date := "" }

/-- Concrete document for claim C6: one keywords paragraph. -/
def dC6 : Doc :=
  { paragraphs :=
      [ { text := "Content Keywords: a, b, c", style := "Normal", runs := [] } ],
    sections := [], modified_date := "" }

/-- Concrete document for claim C9: parses fine and has a title, so its
directory entry depends only on the transport oracle. -/
def dOK : Doc :=
  { paragraphs :=
      [ { text := "Launch Day", style := "Heading 1", runs := [] },
        { text := "A New Beginning", style := "Heading 2", runs := [] } ],
    sections := [], modified_date := "" }

/-- Concrete document for claim C9: parses, but to an empty title (its only
paragraph is a keywords line), so its upload is refused. -/
def dC9Empty : Doc :=
  { paragraphs :=
      [ { text := "Content Keywords: x", style := "Normal", runs := [] } ],
    sections := [], modified_date := "" }

/-- Concrete document for claim C10: paragraphs present, none styled
Heading 1. -/
def dC10 : Doc :=
  { paragraphs :=
      [ { text := "Quarterly Update", style := "Normal", runs := [] },
        { text := "Body text here", style := "Normal",
          runs := [{ text := "Body text here", bold := false, italic := false }] } ],
    sections := [], modified_date := "" }

/-- Scan state for the claim C7 witness: title already found. -/
def stC7 : ScanState := { title := "Launch Day", titleFound := true }

/-- Blank paragraph the tagline step must skip (claim C7 witness). -/
def preC7 : Paragraph := { text := "   ", style := "Normal", runs := [] }

/-- The next contentful paragraph, not Heading-2 styled (claim C7 witness). -/
def qC7 : Paragraph := { text := "A New Beginning", style := "Normal", runs := [] }

/-! ### General helper lemmas -/

theorem mem_intersperse {α : Type} (sep : α) :
    ∀ (l : List α) (x : α), x ∈ l.intersperse sep → x = sep ∨ x ∈ l
  | [], _, h => by simp [List.intersperse] at h
  | [a], x, h => by
      have he : ([a] : List α).intersperse sep = [a] := rfl
      rw [he] at h
      exact Or.inr h
  | a :: b :: t, x, h => by
      have he : (a :: b :: t).intersperse sep = a :: sep :: (b :: t).intersperse sep := rfl
      rw [he] at h
      rcases List.mem_cons.mp h with h1 | h2
      · exact Or.inr (by simp [h1])
      · rcases List.mem_cons.mp h2 with h3 | h4
        · exact Or.inl h3
        · rcases mem_intersperse sep (b :: t) x h4 with h5 | h6
          · exact Or.inl h5
          · exact Or.inr (List.mem_cons_of_mem _ h6)

theorem foldl_append_eq {α β : Type} (g : α → β) :
    ∀ (l : List α) (acc : List β),
      l.foldl (fun r x => r ++ [g x]) acc = acc ++ l.map g
  | [], acc => by simp
  | x :: l, acc => by
      simp only [List.foldl_cons, List.map_cons]
      rw [foldl_append_eq g l (acc ++ [g x])]
      simp

theorem foldl_strAppend_eq {α : Type} (g : α → String) :
    ∀ (l : List α) (acc : String),
      l.foldl (fun r x => r ++ g x) acc = acc ++ joinStrings (l.map g)
  | [], acc => by
      show acc = acc ++ ""
      rw [String.append_empty]
  | x :: l, acc => by
      simp only [List.foldl_cons, List.map_cons]
      rw [foldl_strAppend_eq g l (acc ++ g x)]
      show acc ++ g x ++ joinStrings (l.map g) = acc ++ (g x ++ joinStrings (l.map g))
      exact String.append_assoc ..

theorem process_inline_eq (p : Paragraph) :
    process_inline_formatting p = joinStrings (p.runs.map renderRun) := by
  unfold process_inline_formatting
  rw [foldl_strAppend_eq, String.empty_append]

theorem SafeMarkup.append {l1 l2 : List Char}
    (h1 : SafeMarkup l1) (h2 : SafeMarkup l2) : SafeMarkup (l1 ++ l2) := by
  induction h1 with
  | nil => simpa using h2
  | safe hc1 hc2 hc3 _ ih => exact SafeMarkup.safe hc1 hc2 hc3 ih
  | ent he _ ih =>
      rw [List.append_assoc]
      exact SafeMarkup.ent he ih
  | tag ht _ ih =>
      rw [List.append_assoc]
      exact SafeMarkup.tag ht ih

theorem safeMarkup_data_append {s t : String}
    (hs : SafeMarkup s.data) (ht : SafeMarkup t.data) : SafeMarkup (s ++ t).data := by
  rw [String.data_append]
  exact hs.append ht

theorem safeMarkup_tag {t : String} (h : t ∈ allowedTags) : SafeMarkup t.data := by
  simpa using SafeMarkup.tag h SafeMarkup.nil

theorem safeMarkup_wrap {t1 t2 : String} (h1 : SafeMarkup t1.data) (h2 : SafeMarkup t2.data)
    {inner : String} (hi : SafeMarkup inner.data) : SafeMarkup (t1 ++ inner ++ t2).data :=
  safeMarkup_data_append (safeMarkup_data_append h1 hi) h2

theorem safeMarkup_escapeChar (c : Char) : SafeMarkup (escapeChar c) := by
  unfold escapeChar
  split
  · simpa using SafeMarkup.ent (e := "&amp;") (by decide) SafeMarkup.nil
  · split
    · simpa using SafeMarkup.ent (e := "&lt;") (by decide) SafeMarkup.nil
    · split
      · simpa using SafeMarkup.ent (e := "&gt;") (by decide) SafeMarkup.nil
      · split
        · simpa using SafeMarkup.ent (e := "&quot;") (by decide) SafeMarkup.nil
        · split
          · simpa using SafeMarkup.ent (e := "&#x27;") (by decide) SafeMarkup.nil
          · rename_i h1 h2 h3 h4 h5
            exact SafeMarkup.safe h1 h2 h3 SafeMarkup.nil

theorem safeMarkup_escape (s : String) : SafeMarkup (escape s).data := by
  show SafeMarkup ((s.data.map escapeChar).flatten)
  induction s.data with
  | nil => exact SafeMarkup.nil
  | cons c l ih =>
      rw [List.map_cons, List.flatten_cons]
      exact (safeMarkup_escapeChar c).append ih

theorem safeMarkup_renderRun (r : Run) : SafeMarkup (renderRun r).data := by
  have hso : ("<strong>" : String) ∈ allowedTags := by decide
  have hsc : ("</strong>" : String) ∈ allowedTags := by decide
  have heo : ("<em>" : String) ∈ allowedTags := by decide
  have hec : ("</em>" : String) ∈ allowedTags := by decide
  have hse : SafeMarkup ("<strong><em>".data) := by
    have hd : "<strong><em>".data = "<strong>".data ++ "<em>".data := rfl
    rw [hd]
    exact SafeMarkup.tag hso (safeMarkup_tag heo)
  have hes : SafeMarkup ("</em></strong>".data) := by
    have hd : "</em></strong>".data = "</em>".data ++ "</strong>".data := rfl
    rw [hd]
    exact SafeMarkup.tag hec (safeMarkup_tag hsc)
  by_cases hb : r.bold <;> by_cases hi : r.italic <;>
    simp only [renderRun, hb, hi, Bool.and_self, Bool.and_true, Bool.and_false,
      Bool.true_and, Bool.false_and, if_true, if_false]
  · exact safeMarkup_wrap hse hes (safeMarkup_escape r.text)
  · exact safeMarkup_wrap (safeMarkup_tag hso) (safeMarkup_tag hsc) (safeMarkup_escape r.text)
  · exact safeMarkup_wrap (safeMarkup_tag heo) (safeMarkup_tag hec) (safeMarkup_escape r.text)
  · exact safeMarkup_escape r.text

theorem safeMarkup_joinStrings {l : List String}
    (h : ∀ s ∈ l, SafeMarkup s.data) : SafeMarkup (joinStrings l).data := by
  induction l with
  | nil => exact SafeMarkup.nil
  | cons x l ih =>
      show SafeMarkup (x ++ joinStrings l).data
      exact safeMarkup_data_append (h x (by simp)) (ih (fun s hs => h s (by simp [hs])))

theorem safeMarkup_process_inline (p : Paragraph) :
    SafeMarkup (process_inline_formatting p).data := by
  rw [process_inline_eq]
  refine safeMarkup_joinStrings ?_
  intro s hs
  rcases List.mem_map.mp hs with ⟨r, _, hr⟩
  rw [← hr]
  exact safeMarkup_renderRun r

theorem citemSafe_contentItem (p : Paragraph) (paraText : String) :
    CItemSafe (contentItem p paraText) := by
  unfold contentItem
  split
  · exact safeMarkup_wrap (safeMarkup_tag (by decide)) (safeMarkup_tag (by decide))
      (safeMarkup_escape paraText)
  · split
    · exact safeMarkup_wrap (safeMarkup_tag (by decide)) (safeMarkup_tag (by decide))
        (safeMarkup_escape paraText)
    · split
      · exact safeMarkup_process_inline p
      · exact safeMarkup_wrap (safeMarkup_tag (by decide)) (safeMarkup_tag (by decide))
          (safeMarkup_process_inline p)

/-! ### Lemmas about the title/tagline/content scan -/

theorem scan_step_content (i : Nat) (st : ScanState) (p : Paragraph) :
    (scan_step i st p).content = st.content
    ∨ (scan_step i st p).content = st.content ++ [contentItem p (pyStrip p.text)] := by
  unfold scan_step
  simp only [apply_ite ScanState.content]
  split_ifs <;> simp

theorem scan_step_content_mem (i : Nat) (st : ScanState) (p : Paragraph) :
    ∀ it ∈ (scan_step i st p).content,
      it ∈ st.content ∨ it = contentItem p (pyStrip p.text) := by
  intro it hit
  rcases scan_step_content i st p with h | h <;> rw [h] at hit
  · exact Or.inl hit
  · rcases List.mem_append.mp hit with h1 | h2
    · exact Or.inl h1
    · exact Or.inr (by simpa using h2)

theorem scan_paras_content :
    ∀ (paras : List Paragraph) (i : Nat) (st : ScanState),
      (∀ it ∈ st.content, CItemSafe it) →
      ∀ it ∈ (scan_paras i st paras).content, CItemSafe it
  | [], _, _, h => h
  | p :: rest, i, st, h => by
      refine scan_paras_content rest (i + 1) (scan_step i st p) ?_
      intro it hit
      rcases scan_step_content_mem i st p it hit with h1 | h2
      · exact h it h1
      · rw [h2]
        exact citemSafe_contentItem p (pyStrip p.text)

theorem scan_step_inert (i : Nat) (st : ScanState) (p : Paragraph)
    (ht : st.titleFound = false) (hg : st.taglineFound = false)
    (hh : isHeading1Style p.style = false) : scan_step i st p = st := by
  unfold scan_step
  simp [ht, hg, hh]

theorem scan_paras_inert :
    ∀ (paras : List Paragraph) (i : Nat) (st : ScanState),
      (∀ p ∈ paras, isHeading1Style p.style = false) →
      st.titleFound = false → st.taglineFound = false →
      scan_paras i st paras = st
  | [], _, _, _, _, _ => rfl
  | p :: rest, i, st, h, ht, hg => by
      show scan_paras (i + 1) (scan_step i st p) rest = st
      rw [scan_step_inert i st p ht hg (h p (by simp))]
      exact scan_paras_inert rest (i + 1) st (fun q hq => h q (by simp [hq])) ht hg

theorem scan_step_skip (i : Nat) (st : ScanState) (p : Paragraph)
    (hi : i ≠ 0) (hp : skipPara p = true) : scan_step i st p = st := by
  have hi0 : (i == 0) = false := by simpa using hi
  have hp2 : pyStrip p.text = "" ∨ strContains (pyStrip p.text) kwMarker = true := by
    have h := hp
    simp only [skipPara, Bool.or_eq_true, beq_iff_eq] at h
    exact h
  unfold scan_step
  rcases hp2 with h1 | h2
  · simp [h1]
  · simp [hi0, h2]

theorem scan_step_tagline (i : Nat) (st : ScanState) (q : Paragraph)
    (hi : i ≠ 0) (ht : st.titleFound = true) (hg : st.taglineFound = false)
    (hq : skipPara q = false) :
    scan_step i st q =
      { st with tagline := pyStrip q.text, taglineFound := true, contentStarted := true } := by
  have hi0 : (i == 0) = false := by simpa using hi
  have h1 : (pyStrip q.text == "") = false := by
    cases hh : (pyStrip q.text == "") with
    | false => rfl
    | true => simp [skipPara, hh] at hq
  have h2 : strContains (pyStrip q.text) kwMarker = false := by
    cases hh : strContains (pyStrip q.text) kwMarker with
    | false => rfl
    | true => simp [skipPara, hh] at hq
  have h1n : ¬(pyStrip q.text = "") := by simpa using h1
  unfold scan_step
  simp [h1n, hi0, h2, ht, hg]

theorem scan_paras_tagline :
    ∀ (pre : List Paragraph) (i : Nat) (st : ScanState) (q : Paragraph) (post : List Paragraph),
      i ≠ 0 → st.titleFound = true → st.taglineFound = false →
      (∀ p ∈ pre, skipPara p = true) → skipPara q = false →
      scan_paras i st (pre ++ q :: post) =
        scan_paras (i + pre.length + 1)
          { st with tagline := pyStrip q.text, taglineFound := true, contentStarted := true } post
  | [], i, st, q, post, hi, ht, hg, _, hq => by
      show scan_paras (i + 1) (scan_step i st q) post = _
      rw [scan_step_tagline i st q hi ht hg hq]
      rfl
  | p :: pre, i, st, q, post, hi, ht, hg, hpre, hq => by
      show scan_paras (i + 1) (scan_step i st p) (pre ++ q :: post) = _
      rw [scan_step_skip i st p hi (hpre p (by simp))]
      rw [scan_paras_tagline pre (i + 1) st q post (by omega) ht hg
        (fun r hr => hpre r (by simp [hr])) hq]
      have harith : i + 1 + pre.length + 1 = i + (pre.length + 1) + 1 := by omega
      rw [harith]
      rfl

/-! ### Lemmas about the keywords pass -/

theorem keywords_foldl_skip :
    ∀ (post : List Paragraph) (acc : List String),
      (∀ q ∈ post, strContains q.text kwMarker = false) →
      post.foldl (fun acc p =>
        if strContains p.text kwMarker then extract_keywords p.text else acc) acc = acc
  | [], _, _ => rfl
  | q :: post, acc, h => by
      have hq : strContains q.text kwMarker = false := h q (by simp)
      simp only [List.foldl_cons, hq]
      rw [if_neg (by simp)]
      exact keywords_foldl_skip post acc (fun r hr => h r (by simp [hr]))

theorem keywords_scan_eq (pre : List Paragraph) (p : Paragraph) (post : List Paragraph)
    (hp : strContains p.text kwMarker = true)
    (hpost : ∀ q ∈ post, strContains q.text kwMarker = false) :
    keywords_scan (pre ++ p :: post) = extract_keywords p.text := by
  unfold keywords_scan
  rw [List.foldl_append, List.foldl_cons]
  simp only [hp, if_true]
  exact keywords_foldl_skip post _ hpost

/-! ### Normal forms of the two batch loops -/

theorem process_directory_eq {Resp : Type} (net : Payload → Option Resp)
    (files : List (String × Option Doc)) :
    process_directory net files = files.map (dir_entry net) := by
  unfold process_directory
  rw [foldl_append_eq (dir_entry net) files []]
  simp

theorem upload_docs_foldl {Resp : Type} (net : Payload → Option Resp) :
    ∀ (files : List (Option Doc)) (acc : List (Option Resp)),
      files.foldl (fun results fd =>
        match parse_doc_file fd with
        | some bd => results ++ [upload_to_strapi net bd]
        | none => results) acc
      = acc ++ files.filterMap (fun fd => (parse_doc_file fd).map (upload_to_strapi net))
  | [], acc => by simp
  | fd :: files, acc => by
      rcases hfd : parse_doc_file fd with _ | bd
      · simp only [List.foldl_cons, hfd]
        rw [upload_docs_foldl net files acc]
        simp [List.filterMap_cons, hfd]
      · simp only [List.foldl_cons, hfd]
        rw [upload_docs_foldl net files (acc ++ [upload_to_strapi net bd])]
        simp [List.filterMap_cons, hfd]

theorem upload_docs_eq {Resp : Type} (net : Payload → Option Resp)
    (files : List (Option Doc)) :
    upload_docs net files
      = files.filterMap (fun fd => (parse_doc_file fd).map (upload_to_strapi net)) := by
  unfold upload_docs
  rw [upload_docs_foldl]
  simp

/-! ### Safety of the wrapping pass and serialisation -/

theorem nodeSafe_itemNode {it : CItem} (h : CItemSafe it) : NodeSafe (itemNode it) := by
  cases it with
  | li inner => exact h
  | other m => exact h

theorem wrapLisGo_safe (ns : List Node) :
    ∀ (acc : Option (List String)),
      (∀ n ∈ ns, NodeSafe n) →
      (∀ l, acc = some l → ∀ s ∈ l, SafeMarkup s.data) →
      ∀ n ∈ wrapLisGo acc ns, NodeSafe n := by
  induction ns with
  | nil =>
      intro acc hns hacc n hn
      cases acc with
      | none => simp [wrapLisGo] at hn
      | some l =>
          replace hn : n ∈ [Node.ul l.reverse] := hn
          have he : n = Node.ul l.reverse := by simpa using hn
          rw [he]
          exact fun s hs => hacc l rfl s (List.mem_reverse.mp hs)
  | cons n0 rest ih =>
      intro acc hns hacc n hn
      have hrest : ∀ m ∈ rest, NodeSafe m := fun m hm => hns m (by simp [hm])
      have hnone : ∀ l, (none : Option (List String)) = some l → ∀ s ∈ l, SafeMarkup s.data :=
        fun l hl => Option.noConfusion hl
      cases acc with
      | none =>
          cases n0 with
          | li s =>
              replace hn : n ∈ wrapLisGo (some [s]) rest := hn
              refine ih (some [s]) hrest ?_ n hn
              intro l hl t ht
              injection hl with hl2
              rw [← hl2] at ht
              have hts : t = s := by simpa using ht
              rw [hts]
              exact hns (Node.li s) (by simp)
          | text s =>
              replace hn : n ∈ Node.text s :: wrapLisGo none rest := hn
              rcases List.mem_cons.mp hn with h | h
              · rw [h]; exact hns (Node.text s) (by simp)
              · exact ih none hrest hnone n h
          | el m =>
              replace hn : n ∈ Node.el m :: wrapLisGo none rest := hn
              rcases List.mem_cons.mp hn with h | h
              · rw [h]; exact hns (Node.el m) (by simp)
              · exact ih none hrest hnone n h
          | ul items =>
              replace hn : n ∈ Node.ul items :: wrapLisGo none rest := hn
              rcases List.mem_cons.mp hn with h | h
              · rw [h]; exact hns (Node.ul items) (by simp)
              · exact ih none hrest hnone n h
      | some l =>
          have hul : NodeSafe (Node.ul l.reverse) :=
            fun s hs => hacc l rfl s (List.mem_reverse.mp hs)
          cases n0 with
          | li s =>
              replace hn : n ∈ wrapLisGo (some (s :: l)) rest := hn
              refine ih (some (s :: l)) hrest ?_ n hn
              intro l2 hl2 t ht
              injection hl2 with hl3
              rw [← hl3] at ht
              rcases List.mem_cons.mp ht with h | h
              · rw [h]; exact hns (Node.li s) (by simp)
              · exact hacc l rfl t h
          | text s =>
              replace hn : n ∈ Node.ul l.reverse :: Node.text s :: wrapLisGo none rest := hn
              rcases List.mem_cons.mp hn with h | h
              · rw [h]; exact hul
              · rcases List.mem_cons.mp h with h2 | h2
                · rw [h2]; exact hns (Node.text s) (by simp)
                · exact ih none hrest hnone n h2
          | el m =>
              replace hn : n ∈ Node.ul l.reverse :: Node.el m :: wrapLisGo none rest := hn
              rcases List.mem_cons.mp hn with h | h
              · rw [h]; exact hul
              · rcases List.mem_cons.mp h with h2 | h2
                · rw [h2]; exact hns (Node.el m) (by simp)
                · exact ih none hrest hnone n h2
          | ul items =>
              replace hn : n ∈ Node.ul l.reverse :: Node.ul items :: wrapLisGo none rest := hn
              rcases List.mem_cons.mp hn with h | h
              · rw [h]; exact hul
              · rcases List.mem_cons.mp h with h2 | h2
                · rw [h2]; exact hns (Node.ul items) (by simp)
                · exact ih none hrest hnone n h2

theorem renderNodes_safe :
    ∀ (ns : List Node), (∀ n ∈ ns, NodeSafe n) → SafeMarkup (renderNodes ns).data
  | [], _ => SafeMarkup.nil
  | n :: rest, h => by
      show SafeMarkup (renderNode n ++ renderNodes rest).data
      refine safeMarkup_data_append ?_ (renderNodes_safe rest (fun m hm => h m (by simp [hm])))
      have hn : NodeSafe n := h n (by simp)
      cases n with
      | text s => exact hn
      | li s =>
          exact safeMarkup_wrap (safeMarkup_tag (by decide)) (safeMarkup_tag (by decide)) hn
      | el m => exact hn
      | ul items =>
          show SafeMarkup
            ("<ul>" ++ joinStrings (items.map fun s => "<li>" ++ s ++ "</li>") ++ "</ul>").data
          refine safeMarkup_wrap (safeMarkup_tag (by decide)) (safeMarkup_tag (by decide)) ?_
          refine safeMarkup_joinStrings ?_
          intro t ht
          rcases List.mem_map.mp ht with ⟨s, hs, hts⟩
          rw [← hts]
          exact safeMarkup_wrap (safeMarkup_tag (by decide)) (safeMarkup_tag (by decide)) (hn s hs)

/-! ### Claim theorems -/

/-- C1 (code behaviour at the failing input): for a document whose content is
two consecutive list-style paragraphs, the code emits one `<ul>` per `<li>`
(the newline text node the join inserts separates the `<li>` siblings in the
soup, so `li.previous_sibling` never equals the current `<ul>`), not a single
`<ul>` wrapping the run as the claim states. -/
theorem c1_ul_wrapping_code_behavior :
    (parse_doc dC1).content = "<ul><li>alpha</li></ul>\n<ul><li>beta</li></ul>" := rfl

/-- C2: for every parsed document whose title is empty after all fallbacks,
no upload request is ever built or sent (`upload_request` returns `none`
without touching the transport), and the caller of `upload_to_strapi`
receives the skip signal `none` for every transport oracle; the functions are
total, so no exception reaches the transport layer. -/
theorem c2_empty_title_no_upload (doc : Doc) (h : (parse_doc doc).title = "") :
    upload_request (parse_doc doc) = none
    ∧ ∀ (Resp : Type) (net : Payload → Option Resp),
        upload_to_strapi net (parse_doc doc) = none := by
  constructor
  · simp [upload_request, h]
  · intro Resp net
    simp [upload_to_strapi, upload_request, h]

/-- Witness for C2: a document whose only paragraph is the keywords line
parses to an empty title, and neither a request nor a response exists. -/
theorem c2_witness :
    upload_request (parse_doc dC2) = none
    ∧ upload_to_strapi (fun _ => (none : Option Unit)) (parse_doc dC2) = none :=
  ⟨(c2_empty_title_no_upload dC2 rfl).1,
   (c2_empty_title_no_upload dC2 rfl).2 Unit (fun _ => none)⟩

/-- C3 counterexample: in `dC3` no paragraph is Heading-1 styled, the claim
says the fallback title is the first non-empty, non-keywords, non-marker
paragraph, which is "Blog roundup" (it is not the first paragraph, hence not
the document-type marker), but the code skips every paragraph containing
"Blog" and extracts "Quarterly Update" instead. -/
theorem c3_counterexample :
    dC3.paragraphs.all (fun p => !isHeading1Style p.style) = true
    ∧ claimC3Title dC3 = "Blog roundup"
    ∧ (parse_doc dC3).title = "Quarterly Update"
    ∧ (parse_doc dC3).title ≠ claimC3Title dC3 :=
  ⟨rfl, rfl, rfl, by decide⟩

/-- C3 (amended): for every document with no Heading-1-styled paragraph, the
extracted title is the first paragraph with non-blank stripped text whose
text contains neither the keywords marker nor the substring "Blog" anywhere
(not only as first-paragraph marker), or the empty string when no paragraph
qualifies. -/
theorem c3_fallback_title_amended (doc : Doc)
    (h : ∀ p ∈ doc.paragraphs, isHeading1Style p.style = false) :
    (parse_doc doc).title =
      match doc.paragraphs.find? (fun p =>
          !(pyStrip p.text == "") && !strContains p.text kwMarker
            && !strContains p.text "Blog") with
      | some p => pyStrip p.text
      | none => "" := by
  have hscan : scan_paras 0 {} doc.paragraphs = {} :=
    scan_paras_inert doc.paragraphs 0 {} h rfl rfl
  show (if (scan_paras 0 {} doc.paragraphs).titleFound
        then (scan_paras 0 {} doc.paragraphs).title
        else fallback_title doc.paragraphs (scan_paras 0 {} doc.paragraphs).title) = _
  rw [hscan]
  rfl

/-- Witness for C3 (amended): on `dC3` the amended fallback rule yields
"Quarterly Update". -/
theorem c3_amended_witness : (parse_doc dC3).title = "Quarterly Update" :=
  (c3_fallback_title_amended dC3 (by decide)).trans rfl

/-- C4: every escaped text fragment is free of raw `<`, `>`, and of any `&`
not opening an entity, and the whole content markup of every parsed document
lies in the `SafeMarkup` grammar: only known tag literals, safe characters
and escape entities, so raw user `<`, `>`, `&` never reach the markup. -/
theorem c4_markup_escaped :
    (∀ s : String, SafeMarkup (escape s).data)
    ∧ ∀ doc : Doc, SafeMarkup (parse_doc doc).content.data := by
  constructor
  · exact safeMarkup_escape
  · intro doc
    show SafeMarkup (renderNodes (wrapLis
      (((scan_paras 0 {} doc.paragraphs).content.map itemNode).intersperse
        (Node.text "\n")))).data
    refine renderNodes_safe _ ?_
    intro n hn
    refine wrapLisGo_safe _ none ?_ (fun l hl => Option.noConfusion hl) n hn
    intro m hm
    rcases mem_intersperse _ _ _ hm with hsep | hmem
    · rw [hsep]
      exact SafeMarkup.safe (by decide) (by decide) (by decide) SafeMarkup.nil
    · rcases List.mem_map.mp hmem with ⟨it, hit, hm2⟩
      rw [← hm2]
      refine nodeSafe_itemNode ?_
      exact scan_paras_content doc.paragraphs 0 {}
        (fun it2 hit2 => absurd hit2 (List.not_mem_nil it2)) it hit

/-- C5: the reading time of every content string is exactly the claimed
formula (strip the markup, count word tokens, divide by 225, round to
nearest, floor at 1), is always at least 1, and is 1 on empty content. -/
theorem c5_reading_time :
    (∀ content : String,
      calculate_reading_time content
        = max 1 (roundNearestDiv (countWords (getText content)) 225)
      ∧ 1 ≤ calculate_reading_time content)
    ∧ calculate_reading_time "" = 1 :=
  ⟨fun _ => ⟨rfl, Nat.le_max_left 1 _⟩, rfl⟩

/-- C6: for every document whose last marker paragraph is `p` (in particular
for the unique keywords paragraph), the extracted keywords are obtained by
removing the marker, stripping, splitting on commas and stripping each token,
preserving order and empty tokens. -/
theorem c6_keywords (doc : Doc) (pre : List Paragraph) (p : Paragraph)
    (post : List Paragraph)
    (hsplit : doc.paragraphs = pre ++ p :: post)
    (hp : strContains p.text kwMarker = true)
    (hpost : ∀ q ∈ post, strContains q.text kwMarker = false) :
    (parse_doc doc).keywords
      = (pySplitComma (pyStrip (String.mk (removeMarkerL p.text.data)))).map pyStrip := by
  show keywords_scan doc.paragraphs = _
  rw [hsplit, keywords_scan_eq pre p post hp hpost]
  rfl

/-- Witness for C6: the paragraph "Content Keywords: a, b, c" yields the
keywords ["a", "b", "c"] in order. -/
theorem c6_witness : (parse_doc dC6).keywords = ["a", "b", "c"] := by
  have h := c6_keywords dC6 []
    { text := "Content Keywords: a, b, c", style := "Normal", runs := [] } []
    rfl rfl (fun q hq => absurd hq (List.not_mem_nil q))
  exact h.trans rfl

/-- C7: once the title is found and the tagline is still missing, the scan
consumes exactly the next paragraph that is non-empty and not the keywords
paragraph as the tagline, whatever its style, and the rest of the scan
continues in content mode behind it. -/
theorem c7_tagline (i : Nat) (st : ScanState) (pre : List Paragraph) (q : Paragraph)
    (post : List Paragraph) (hi : i ≠ 0) (ht : st.titleFound = true)
    (hg : st.taglineFound = false) (hpre : ∀ p ∈ pre, skipPara p = true)
    (hq : skipPara q = false) :
    scan_paras i st (pre ++ q :: post) =
      scan_paras (i + pre.length + 1)
        { st with tagline := pyStrip q.text, taglineFound := true,
                  contentStarted := true } post :=
  scan_paras_tagline pre i st q post hi ht hg hpre hq

/-- Witness for C7: with the title found, a blank paragraph is skipped and
the next contentful paragraph becomes the tagline although its style is
Normal, not Heading 2. -/
theorem c7_witness :
    scan_paras 1 stC7 [preC7, qC7] =
      { stC7 with tagline := "A New Beginning", taglineFound := true,
                  contentStarted := true } := by
  have h := c7_tagline 1 stC7 [preC7] qC7 [] (by decide) rfl rfl (by decide) (by decide)
  exact h.trans rfl

/-- C8: the inline renderer returns the concatenation, in run order, of each
escaped run text wrapped by its bold/italic flags, never splitting or
reordering runs. -/
theorem c8_inline_formatting (p : Paragraph) :
    process_inline_formatting p =
      joinStrings (p.runs.map (fun r =>
        if r.bold && r.italic then "<strong><em>" ++ escape r.text ++ "</em></strong>"
        else if r.bold then "<strong>" ++ escape r.text ++ "</strong>"
        else if r.italic then "<em>" ++ escape r.text ++ "</em>"
        else escape r.text)) := by
  rw [process_inline_eq]
  rfl

/-- C9 counterexample: in the `/upload` endpoint loop, a batch consisting of
one document that cannot be opened continues but produces an empty results
list, with no failure entry for that document. -/
theorem c9_counterexample :
    parse_doc_file (none : Option Doc) = none
    ∧ upload_docs (fun _ => (none : Option Unit)) [(none : Option Doc)] = [] :=
  ⟨rfl, rfl⟩

/-- C9 (amended): a document that fails to parse (cannot be opened, or title
empty after all fallbacks) is per-document fatal only.  In
`process_directory` the batch continues around it and its entry reports
`success = false`.  In the `/upload` endpoint loop the batch also continues
around it, but the recorded evidence differs: an unopenable document
contributes no entry at all, while an empty-title document contributes a
null entry (`none`, the refused upload result). -/
theorem c9_batch_amended {Resp : Type} (net : Payload → Option Resp)
    (pre post : List (String × Option Doc)) (f : String × Option Doc)
    (hfail : parse_doc_file f.2 = none
      ∨ ∃ bd, parse_doc_file f.2 = some bd ∧ bd.title = "") :
    process_directory net (pre ++ f :: post)
      = process_directory net pre ++ dir_entry net f :: process_directory net post
    ∧ (dir_entry net f).success = false
    ∧ ∀ (files1 files2 : List (Option Doc)),
        upload_docs net (files1 ++ f.2 :: files2)
          = upload_docs net files1
            ++ (if parse_doc_file f.2 = none then [] else [(none : Option Resp)])
            ++ upload_docs net files2 := by
  refine ⟨?_, ?_, ?_⟩
  · rw [process_directory_eq, process_directory_eq, process_directory_eq,
      List.map_append, List.map_cons]
  · rcases hfail with h | ⟨bd, hbd, htitle⟩
    · simp [dir_entry, h]
    · simp [dir_entry, hbd, upload_to_strapi, upload_request, htitle]
  · intro files1 files2
    rw [upload_docs_eq, upload_docs_eq, upload_docs_eq,
      List.filterMap_append, List.filterMap_cons]
    rcases hfail with h | ⟨bd, hbd, htitle⟩
    · simp [h]
    · have hup : upload_to_strapi net bd = none := by
        simp [upload_to_strapi, upload_request, htitle]
      simp [hbd, hup]

/-- Witness for C9 (amended): first, a two-file batch whose first file cannot
be opened; the directory runner emits a failure entry and still processes
the second file, and the endpoint loop continues but skips the bad file with
no entry.  Second, a file that parses to an empty title; its directory entry
also reports failure, and in the endpoint loop the batch continues with a
null entry recorded for it. -/
theorem c9_witness :
    ((process_directory (fun _ => (none : Option Unit))
        ([] ++ ("bad.docx", (none : Option Doc)) :: [("good.docx", some dOK)])
      = process_directory (fun _ => (none : Option Unit)) []
        ++ dir_entry (fun _ => (none : Option Unit)) ("bad.docx", (none : Option Doc))
          :: process_directory (fun _ => (none : Option Unit)) [("good.docx", some dOK)])
    ∧ (dir_entry (fun _ => (none : Option Unit))
        ("bad.docx", (none : Option Doc))).success = false
    ∧ upload_docs (fun _ => (none : Option Unit))
        ([(none : Option Doc)] ++ (none : Option Doc) :: [some dOK])
        = upload_docs (fun _ => (none : Option Unit)) [(none : Option Doc)]
          ++ (if parse_doc_file (none : Option Doc) = none then []
              else [(none : Option Unit)])
          ++ upload_docs (fun _ => (none : Option Unit)) [some dOK])
    ∧ (dir_entry (fun _ => (none : Option Unit))
        ("empty.docx", some dC9Empty)).success = false
    ∧ upload_docs (fun _ => (none : Option Unit))
        ([(some dOK : Option Doc)] ++ (some dC9Empty : Option Doc) :: [])
        = upload_docs (fun _ => (none : Option Unit)) [(some dOK : Option Doc)]
          ++ (if parse_doc_file (some dC9Empty : Option Doc) = none then []
              else [(none : Option Unit)])
          ++ upload_docs (fun _ => (none : Option Unit)) [] := by
  have h1 := c9_batch_amended (fun _ => (none : Option Unit)) [] [("good.docx", some dOK)]
    ("bad.docx", (none : Option Doc)) (Or.inl rfl)
  have h2 := c9_batch_amended (fun _ => (none : Option Unit)) [] []
    ("empty.docx", (some dC9Empty : Option Doc))
    (Or.inr ⟨parse_doc dC9Empty, rfl, rfl⟩)
  exact ⟨⟨h1.1, h1.2.1, h1.2.2 [(none : Option Doc)] [some dOK]⟩,
    h2.2.1, h2.2.2 [(some dOK : Option Doc)] []⟩

/-- C10: when no paragraph matches the Heading 1 style, the title scan never
fires, so the tagline stays empty and no content paragraph is ever
collected, even though the fallback may still assign a title. -/
theorem c10_no_h1_no_content (doc : Doc)
    (h : ∀ p ∈ doc.paragraphs, isHeading1Style p.style = false) :
    (parse_doc doc).tagline = "" ∧ (parse_doc doc).content = "" := by
  have hscan : scan_paras 0 {} doc.paragraphs = {} :=
    scan_paras_inert doc.paragraphs 0 {} h rfl rfl
  constructor
  · show (scan_paras 0 {} doc.paragraphs).tagline = ""
    rw [hscan]
  · show renderNodes (wrapLis
      (((scan_paras 0 {} doc.paragraphs).content.map itemNode).intersperse
        (Node.text "\n"))) = ""
    rw [hscan]
    rfl

/-- Witness for C10: a document with two Normal paragraphs gets the fallback
title but empty tagline and empty content. -/
theorem c10_witness :
    (parse_doc dC10).tagline = "" ∧ (parse_doc dC10).content = "" :=
  c10_no_h1_no_content dC10 (by decide)

end Blog
